import Mathlib

/-!
# Health-check runner (`src/health-check.js`)

A shallow embedding of the runner: the probe registry, `checkService`,
`formatStatus`, `printResult`, `printSummary`, `main`, and the field
extraction of the PostgreSQL, Redis, RabbitMQ and Keycloak probes.

Modelling conventions.

* A promise that is awaited is the value it settles to: `Except JsError α`,
  `.ok` for fulfilment and `.error` for rejection.  The network calls of a
  probe are inputs of the probe's `test`, in the order the source awaits them.
* A thrown value is a JavaScript `Error`; the runner reads only its `message`.
* `console.log` appends its argument to the console, a list of strings: one
  entry per call, without the line break the console adds after it.
* `name.length` is the number of UTF-16 code units of the string.
* A property that is `undefined` or not there is `none`.  The auxiliary fields
  of a result are a string (`version`, `status`) or a count (`buckets`), as in
  the data model of the specification.
* The messages of the engine's own `TypeError` and `RangeError` are those of
  V8, the engine of Node.js.
-/

namespace HealthCheck

/-! ## Data model -/

/-- A thrown JavaScript `Error`; only its `message` is read by the runner. -/
structure JsError where
  message : String
deriving DecidableEq

/-- The object a probe's `test` resolves to: `ok`, and the auxiliary
    properties `version`, `buckets`, `status` a probe may set. -/
structure ProbeResult where
  ok : Bool
  version : Option String := none
  buckets : Option Nat := none
  status : Option String := none
deriving DecidableEq

/-- The object `checkService` resolves to.  The success branch sets `details`
    and has no `error` property; the failure branch sets `error` and has no
    `details` property. -/
structure CheckOutcome where
  name : String
  passed : Bool
  details : Option ProbeResult := none
  error : Option String := none
deriving DecidableEq

/-- An entry of the `services` object: its key, and the `name` and `status`
    properties (the `test` property is the behaviour passed to `checkService`). -/
structure Service where
  key : String
  name : String
  status : String
deriving DecidableEq

/-- The `services` registry, in the order its keys are written. -/
def services : List Service :=
  [ ⟨"postgres", "PostgreSQL", "⏳"⟩,
    ⟨"redis", "Redis", "⏳"⟩,
    ⟨"rabbitmq", "RabbitMQ", "⏳"⟩,
    ⟨"minio", "MinIO", "⏳"⟩,
    ⟨"keycloak", "Keycloak", "⏳"⟩,
    ⟨"pgadmin", "pgAdmin", "⏳"⟩ ]

/-- The value of `services[key]`: `none` when the object has no such key. -/
def lookupService (key : String) : Option Service :=
  services.find? (fun s => s.key == key)

/-- The value of `Object.keys(services)`. -/
def serviceKeys : List String :=
  services.map (fun s => s.key)

/-! ## JavaScript string primitives -/

/-- Number of UTF-16 code units of a character. -/
def utf16Units (c : Char) : Nat :=
  if c.toNat < 0x10000 then 1 else 2

/-- The value of `s.length`: the number of UTF-16 code units of `s`. -/
def utf16Len (s : String) : Nat :=
  (s.data.map utf16Units).sum

/-- The value of `s.repeat(count)`: a `RangeError` for a negative count. -/
def jsRepeat (s : String) (count : Int) : Except JsError String :=
  if count < 0 then
    .error ⟨"Invalid count value: " ++ toString count⟩
  else
    .ok (String.join (List.replicate count.toNat s))

/-- Truthiness of a property that is a string or `undefined`: the empty
    string and `undefined` are falsy. -/
def truthy (v : Option String) : Bool :=
  match v with
  | some s => s != ""
  | none => false

/-! ## Reporting -/

/-- The console: the arguments of the `console.log` calls so far. -/
abbrev Console := List String

/-- The function `formatStatus`. -/
def formatStatus (passed : Bool) : String :=
  if passed then "✅" else "❌"

/-- The function `printHeader`. -/
def printHeader (c : Console) : Console :=
  c ++ [ "\n╔════════════════════════════════════════════════╗",
         "║     Stack Server - Health Check Report        ║",
         "╚════════════════════════════════════════════════╝\n" ]

/-- The statement `if (details.version) line += ...` of `printResult`. -/
def appendVersion (line : String) (d : ProbeResult) : String :=
  if truthy d.version then line ++ " │ v" ++ d.version.getD "" else line

/-- The statement `if (details.buckets !== undefined) line += ...`. -/
def appendBuckets (line : String) (d : ProbeResult) : String :=
  match d.buckets with
  | some n => line ++ " │ " ++ toString n ++ " buckets"
  | none => line

/-- The statement `if (details.status) line += ...`. -/
def appendStatus (line : String) (d : ProbeResult) : String :=
  if truthy d.status then line ++ " │ " ++ d.status.getD "" else line

/-- The value of `line` that `printResult` passes to `console.log`, or the
    `RangeError` of `repeat` when `12 - name.length` is negative. -/
def resultLine (name status : String) (details : Option ProbeResult) :
    Except JsError String :=
  match jsRepeat " " (12 - (utf16Len name : Int)) with
  | .error e => .error e
  | .ok padding =>
    let line := status ++ " " ++ name ++ padding
    match details with
    | none => .ok line
    | some d => .ok (appendStatus (appendBuckets (appendVersion line d) d) d)

/-- The function `printResult`. -/
def printResult (name status : String) (details : Option ProbeResult) (c : Console) :
    Except JsError Console :=
  match resultLine name status details with
  | .error e => .error e
  | .ok line => .ok (c ++ [line])

/-- The constant `passed` of `printSummary`. -/
def passedCount (results : List CheckOutcome) : Nat :=
  (results.filter (fun r => r.passed)).length

/-- The function `printSummary`. -/
def printSummary (results : List CheckOutcome) (c : Console) : Console :=
  let passed := passedCount results
  let total := results.length
  let allPassed : Bool := passed == total
  let c1 := c ++ [ "\n" ++ String.join (List.replicate 48 "─") ]
  let c2 := c1 ++ [ "\nStatus: " ++
    (if allPassed then "✅ ALL SERVICES HEALTHY" else "⚠️  SOME SERVICES UNAVAILABLE") ]
  let c3 := c2 ++ [ "Result: " ++ toString passed ++ "/" ++ toString total ++
    " services passed\n" ]
  if !allPassed then
    c3 ++ [ "💡 Tip: Run \"docker-compose logs -f\" to view service logs\n" ]
  else
    c3

/-! ## The runner -/

/-- The function `checkService`, given how the probe's `test` settles.  For a
    key that `services` does not have, `service` is `undefined`: the call
    `service.test()` throws inside `try` and `service.name` throws again
    inside `catch`, so the promise is rejected. -/
def checkService (key : String) (test : Except JsError ProbeResult) :
    Except JsError CheckOutcome :=
  match lookupService key with
  | none => .error ⟨"Cannot read properties of undefined (reading \x27name\x27)"⟩
  | some service =>
    match test with
    | .ok result =>
      .ok { name := service.name, passed := result.ok, details := some result }
    | .error error =>
      .ok { name := service.name, passed := false, error := some error.message }

/-- The variables of `main` that its loop updates. -/
structure LoopState where
  results : List CheckOutcome
  out : Console
deriving DecidableEq

/-- The `for` loop of `main` over the remaining keys.  `settle key` is how the
    `test` of `services[key]` settles in this run.  The second component is
    the error that ended the loop early, if one did. -/
def runLoop (settle : String → Except JsError ProbeResult) :
    List String → LoopState → LoopState × Option JsError
  | [], st => (st, none)
  | key :: rest, st =>
    match checkService key (settle key) with
    | .error e => (st, some e)
    | .ok result =>
      let st1 : LoopState := { st with results := st.results ++ [result] }
      match printResult result.name (formatStatus result.passed) result.details st1.out with
      | .error e => (st1, some e)
      | .ok out => runLoop settle rest { st1 with out := out }

/-- The argument of `process.exit` at the end of `main`. -/
def exitCode (results : List CheckOutcome) : Nat :=
  if results.all (fun r => r.passed) then 0 else 1

/-- What a run of the script leaves behind: both output streams, the
    `results` array of `main`, and the exit code of the process. -/
structure Run where
  stdout : Console
  stderr : Console
  results : List CheckOutcome
  code : Nat
deriving DecidableEq

/-- The function `main` together with the `unhandledRejection` handler, which
    runs when the promise of `main` is rejected. -/
def main (settle : String → Except JsError ProbeResult) : Run :=
  let c := printHeader []
  let c := c ++ [ "Testing services...\n" ]
  match runLoop settle serviceKeys { results := [], out := c } with
  | (st, none) =>
    { stdout := printSummary st.results st.out, stderr := [],
      results := st.results, code := exitCode st.results }
  | (st, some error) =>
    { stdout := st.out ++ [ "\n💡 Make sure the stack is running: docker-compose up -d\n" ],
      stderr := [ "\n❌ Error: " ++ error.message ],
      results := st.results, code := 1 }

/-! ## Field extraction of the probes -/

/-- The pieces of a character list between the occurrences of `sep`; `cur`
    holds the piece being read, in reverse. -/
def splitChars (sep : Char) : List Char → List Char → List (List Char)
  | [], cur => [cur.reverse]
  | c :: cs, cur =>
    if c = sep then cur.reverse :: splitChars sep cs [] else splitChars sep cs (c :: cur)

/-- The value of `s.split(sep)` for a separator of one character. -/
def jsSplit (s : String) (sep : Char) : List String :=
  (splitChars sep s.data []).map String.mk

/-- A row of a query result: its `version` column, if it has one. -/
structure PgRow where
  version : Option String
deriving DecidableEq

/-- The result of `client.query`: its `rows`. -/
structure PgQueryResult where
  rows : List PgRow
deriving DecidableEq

/-- The `test` of `services.postgres`, given how `client.connect()`,
    `client.query(...)` and `client.end()` settle.  `result.rows[0]` is
    `undefined` for an empty array, and reading `version` of it throws; a row
    without the column gives `undefined`, and calling `split` on it throws.
    The element `[1]` of the split is `undefined` when there is none. -/
def postgresTest (connect : Except JsError Unit) (query : Except JsError PgQueryResult)
    (finish : Except JsError Unit) : Except JsError ProbeResult :=
  match connect with
  | .error e => .error e
  | .ok _ =>
    match query with
    | .error e => .error e
    | .ok result =>
      match finish with
      | .error e => .error e
      | .ok _ =>
        match result.rows.head? with
        | none => .error ⟨"Cannot read properties of undefined (reading \x27version\x27)"⟩
        | some row =>
          match row.version with
          | none => .error ⟨"Cannot read properties of undefined (reading \x27split\x27)"⟩
          | some v => .ok { ok := true, version := (jsSplit v ' ').get? 1 }

/-- Line terminators: the characters the `.` of a regular expression without
    the `s` flag does not match. -/
def isLineTerminator (c : Char) : Bool :=
  c = '\n' || c = '\r' || c = '\u2028' || c = '\u2029'

/-- The text after `pre` when `l` starts with `pre`. -/
def dropLeading : List Char → List Char → Option (List Char)
  | [], l => some l
  | _ :: _, [] => none
  | p :: ps, c :: cs => if p = c then dropLeading ps cs else none

/-- The capture group of `/redis_version:(.+)/` at its leftmost match: the
    first place where the literal is followed by at least one character that
    is not a line terminator; the greedy group runs to the end of that line.
    The value is `none` when `match` returns `null`. -/
def matchRedisVersion : List Char → Option (List Char)
  | [] => none
  | c :: cs =>
    match dropLeading "redis_version:".data (c :: cs) with
    | some rest =>
      match rest.takeWhile (fun x => !isLineTerminator x) with
      | [] => matchRedisVersion cs
      | g :: gs => some (g :: gs)
    | none => matchRedisVersion cs

/-- The `test` of `services.redis`, given how `client.connect()`,
    `client.ping()` and `client.info(...)` settle.  Reading `[1]` of
    the `null` that `match` returns throws. -/
def redisTest (connect : Except JsError Unit) (ping : Except JsError String)
    (info : Except JsError String) : Except JsError ProbeResult :=
  match connect with
  | .error e => .error e
  | .ok _ =>
    match ping with
    | .error e => .error e
    | .ok pong =>
      match info with
      | .error e => .error e
      | .ok text =>
        match matchRedisVersion text.data with
        | none => .error ⟨"Cannot read properties of null (reading \x271\x27)"⟩
        | some version => .ok { ok := pong == "PONG", version := some (String.mk version) }

/-- The `data` of an HTTP response: `null`, a text that was not parsed as an
    object, or an object with string-valued properties. -/
inductive Body where
  | null
  | text (s : String)
  | object (fields : List (String × String))
deriving DecidableEq

/-- An HTTP response: its `status` and its `data`. -/
structure HttpResponse where
  status : Nat
  data : Body
deriving DecidableEq

/-- The value of `body[key]` for the keys the probes read: a `TypeError` on
    `null`, `undefined` on a text and on an object without the key. -/
def readProperty (body : Body) (key : String) : Except JsError (Option String) :=
  match body with
  | .null => .error ⟨"Cannot read properties of null (reading \x27" ++ key ++ "\x27)"⟩
  | .text _ => .ok none
  | .object fields => .ok (fields.lookup key)

/-- The `test` of `services.rabbitmq`, given how `amqp.connect(...)`,
    `connection.createChannel()`, `channel.close()`, `connection.close()` and
    the `axios.get` of the overview settle. -/
def rabbitmqTest (connect createChannel channelClose connectionClose : Except JsError Unit)
    (overview : Except JsError HttpResponse) : Except JsError ProbeResult :=
  match connect with
  | .error e => .error e
  | .ok _ =>
    match createChannel with
    | .error e => .error e
    | .ok _ =>
      match channelClose with
      | .error e => .error e
      | .ok _ =>
        match connectionClose with
        | .error e => .error e
        | .ok _ =>
          match overview with
          | .error e => .error e
          | .ok response =>
            match readProperty response.data "rabbitmq_version" with
            | .error e => .error e
            | .ok version => .ok { ok := true, version := version }

/-- The `test` of `services.keycloak`, given how the `axios.get` of the
    readiness endpoint settles. -/
def keycloakTest (ready : Except JsError HttpResponse) : Except JsError ProbeResult :=
  match ready with
  | .error e => .error e
  | .ok response =>
    match readProperty response.data "status" with
    | .error e => .error e
    | .ok status => .ok { ok := response.status == 200, status := status }

/-! ## The report line as the specification words it -/

/-- The segments of a report line in the words of the specification: one
    segment for each auxiliary field that is present, in the order version,
    buckets, status, and nothing for a field that is absent. -/
def specSegments (d : ProbeResult) : String :=
  (match d.version with
    | some v => " │ v" ++ v
    | none => "") ++
  (match d.buckets with
    | some n => " │ " ++ toString n ++ " buckets"
    | none => "") ++
  (match d.status with
    | some s => " │ " ++ s
    | none => "")

/-- The report line in the words of the specification: the glyph, a space,
    the name padded with spaces to 12 code units, and the segments. -/
def specLine (status name : String) (d : ProbeResult) : String :=
  status ++ " " ++ name ++ String.join (List.replicate (12 - utf16Len name) " ") ++
    specSegments d

/-- A record in which a `version` or `status` that is the empty string is
    taken as absent. -/
def withoutEmpty (d : ProbeResult) : ProbeResult :=
  { d with
    version := if d.version = some "" then none else d.version,
    status := if d.status = some "" then none else d.status }


/-! ## Auxiliary facts -/

theorem lookupService_of_mem (s : Service) (h : s ∈ services) :
    lookupService s.key = some s := by
  simp only [services, List.mem_cons, List.mem_singleton, List.not_mem_nil, or_false] at h
  rcases h with h | h | h | h | h | h <;> subst h <;> rfl

theorem name_length_of_mem (s : Service) (h : s ∈ services) : utf16Len s.name ≤ 12 := by
  simp only [services, List.mem_cons, List.mem_singleton, List.not_mem_nil, or_false] at h
  rcases h with h | h | h | h | h | h <;> subst h <;> decide

theorem mem_services_of_key (k : String) (h : k ∈ serviceKeys) :
    ∃ s, s ∈ services ∧ s.key = k := by
  simpa [serviceKeys] using h

theorem jsRepeat_ok (s : String) (n : Nat) :
    jsRepeat s (n : Int) = .ok (String.join (List.replicate n s)) := by
  simp [jsRepeat]

theorem padding_ok (name : String) (h : utf16Len name ≤ 12) :
    jsRepeat " " (12 - (utf16Len name : Int)) =
      .ok (String.join (List.replicate (12 - utf16Len name) " ")) := by
  have : (12 - (utf16Len name : Int)) = ((12 - utf16Len name : Nat) : Int) := by omega
  rw [this, jsRepeat_ok]

theorem padding_error (name : String) (h : 12 < utf16Len name) :
    jsRepeat " " (12 - (utf16Len name : Int)) =
      .error ⟨"Invalid count value: " ++ toString (12 - (utf16Len name : Int))⟩ := by
  have : (12 - (utf16Len name : Int)) < 0 := by omega
  simp [jsRepeat, this]

theorem utf16Len_append (a b : String) : utf16Len (a ++ b) = utf16Len a + utf16Len b := by
  simp [utf16Len, String.data_append]

theorem join_replicate_succ (n : Nat) (s : String) :
    String.join (List.replicate (n + 1) s) = s ++ String.join (List.replicate n s) := by
  apply String.ext
  simp [String.data_join, String.data_append, List.replicate_succ]

theorem utf16Len_spaces (n : Nat) : utf16Len (String.join (List.replicate n " ")) = n := by
  induction n with
  | zero => rfl
  | succ k ih =>
    rw [join_replicate_succ, utf16Len_append, ih]
    have : utf16Len " " = 1 := by decide
    omega

theorem appended_segments (line : String) (d : ProbeResult) :
    ∃ rest, appendStatus (appendBuckets (appendVersion line d) d) d = line ++ rest := by
  have hv : ∃ r, appendVersion line d = line ++ r := by
    unfold appendVersion
    split
    · exact ⟨" │ v" ++ d.version.getD "", by simp [String.append_assoc]⟩
    · exact ⟨"", by simp⟩
  obtain ⟨r1, h1⟩ := hv
  have hb : ∃ r, appendBuckets (line ++ r1) d = line ++ r := by
    unfold appendBuckets
    split
    · rename_i n _
      exact ⟨r1 ++ " │ " ++ toString n ++ " buckets", by simp [String.append_assoc]⟩
    · exact ⟨r1, rfl⟩
  obtain ⟨r2, h2⟩ := hb
  have hs : ∃ r, appendStatus (line ++ r2) d = line ++ r := by
    unfold appendStatus
    split
    · exact ⟨r2 ++ " │ " ++ d.status.getD "", by simp [String.append_assoc]⟩
    · exact ⟨r2, rfl⟩
  obtain ⟨r3, h3⟩ := hs
  exact ⟨r3, by rw [h1, h2, h3]⟩

theorem resultLine_ok (name status : String) (details : Option ProbeResult)
    (h : utf16Len name ≤ 12) :
    ∃ rest, resultLine name status details =
      .ok (status ++ " " ++ name ++ String.join (List.replicate (12 - utf16Len name) " ") ++ rest) := by
  unfold resultLine
  rw [padding_ok name h]
  cases details with
  | none => exact ⟨"", by simp⟩
  | some d =>
    obtain ⟨rest, hrest⟩ := appended_segments
      (status ++ " " ++ name ++ String.join (List.replicate (12 - utf16Len name) " ")) d
    exact ⟨rest, by simp only [hrest]⟩

theorem resultLine_error (name status : String) (details : Option ProbeResult)
    (h : 12 < utf16Len name) :
    resultLine name status details =
      .error ⟨"Invalid count value: " ++ toString (12 - (utf16Len name : Int))⟩ := by
  unfold resultLine
  rw [padding_error name h]

theorem checkService_of_mem (s : Service) (h : s ∈ services) (t : Except JsError ProbeResult) :
    checkService s.key t =
      .ok (match t with
        | .ok result => { name := s.name, passed := result.ok, details := some result }
        | .error error => { name := s.name, passed := false, error := some error.message }) := by
  unfold checkService
  rw [lookupService_of_mem s h]
  cases t <;> rfl

theorem runLoop_complete (settle : String → Except JsError ProbeResult) :
    ∀ (keys : List String), (∀ k ∈ keys, k ∈ serviceKeys) → ∀ (st : LoopState),
      ∃ os lines,
        runLoop settle keys st = (⟨st.results ++ os, st.out ++ lines⟩, none) ∧
        List.Forall₂ (fun k o => checkService k (settle k) = .ok o) keys os ∧
        List.Forall₂
          (fun o line => resultLine o.name (formatStatus o.passed) o.details = .ok line)
          os lines := by
  intro keys
  induction keys with
  | nil =>
    intro _ st
    exact ⟨[], [], by simp [runLoop], List.Forall₂.nil, List.Forall₂.nil⟩
  | cons k rest ih =>
    intro hk st
    obtain ⟨s, hs, hkey⟩ := mem_services_of_key k (hk k (List.mem_cons_self k rest))
    have hcs := checkService_of_mem s hs (settle k)
    rw [hkey] at hcs
    generalize ho : (match settle k with
        | .ok result => ({ name := s.name, passed := result.ok, details := some result } : CheckOutcome)
        | .error error => { name := s.name, passed := false, error := some error.message }) = o at hcs
    have hname : o.name = s.name := by
      rw [← ho]; cases settle k <;> rfl
    obtain ⟨tail, hline⟩ := resultLine_ok o.name (formatStatus o.passed) o.details
      (by rw [hname]; exact name_length_of_mem s hs)
    generalize formatStatus o.passed ++ " " ++ o.name ++
      String.join (List.replicate (12 - utf16Len o.name) " ") ++ tail = line at hline
    obtain ⟨os, lines, hrun, hos, hlines⟩ :=
      ih (fun k' hk' => hk k' (List.mem_cons_of_mem k hk'))
        ⟨st.results ++ [o], st.out ++ [line]⟩
    refine ⟨o :: os, line :: lines, ?_, List.Forall₂.cons hcs hos, List.Forall₂.cons hline hlines⟩
    simp only [runLoop, hcs, printResult, hline, hrun, List.append_assoc, List.singleton_append]

theorem outcome_name_of_checkService (k : String) (t : Except JsError ProbeResult)
    (o : CheckOutcome) (h : checkService k t = .ok o) :
    (lookupService k).map (fun s => s.name) = some o.name := by
  unfold checkService at h
  cases hl : lookupService k with
  | none => simp [hl] at h
  | some s =>
    cases t <;> simp only [hl, Except.ok.injEq] at h <;> subst h <;> rfl

theorem outcome_names (settle : String → Except JsError ProbeResult)
    (keys : List String) (os : List CheckOutcome)
    (h : List.Forall₂ (fun k o => checkService k (settle k) = .ok o) keys os) :
    keys.map (fun k => (lookupService k).map (fun s => s.name)) =
      os.map (fun o => some o.name) := by
  induction h with
  | nil => rfl
  | cons hko _ ih =>
    simp only [List.map_cons, ih, outcome_name_of_checkService _ _ _ hko]

theorem main_completes (settle : String → Except JsError ProbeResult) :
    ∃ os lines,
      List.Forall₂ (fun k o => checkService k (settle k) = .ok o) serviceKeys os ∧
      List.Forall₂
        (fun o line => resultLine o.name (formatStatus o.passed) o.details = .ok line)
        os lines ∧
      main settle =
        { stdout := printSummary os (printHeader [] ++ [ "Testing services...\n" ] ++ lines),
          stderr := [], results := os, code := exitCode os } := by
  obtain ⟨os, lines, hrun, hos, hlines⟩ :=
    runLoop_complete settle serviceKeys (fun _ h => h)
      { results := [], out := printHeader [] ++ [ "Testing services...\n" ] }
  refine ⟨os, lines, hos, hlines, ?_⟩
  simp only [main, hrun, List.nil_append]

theorem exitCode_zero_iff (results : List CheckOutcome) :
    exitCode results = 0 ↔ ∀ r ∈ results, r.passed = true := by
  unfold exitCode
  by_cases h : results.all (fun r => r.passed) = true
  · simp only [h, if_true, true_iff]
    simpa [List.all_eq_true] using h
  · simp only [h, if_false]
    constructor
    · intro h1; exact absurd h1 (by decide)
    · intro h2; exact absurd (by simpa [List.all_eq_true] using h2) h

theorem exitCode_zero_or_one (results : List CheckOutcome) :
    exitCode results = 0 ∨ exitCode results = 1 := by
  unfold exitCode
  split
  · exact Or.inl rfl
  · exact Or.inr rfl

/-! ## Exit code and outcomes (C1, C2, C3) -/

/-- C1: for every way the six probes settle, the exit code of the process is 0
    if and only if every outcome in the `results` array of `main` has
    `passed` true, and it is 1 otherwise; the decision `exitCode` that `main`
    takes has this property on every list of outcomes. -/
theorem main_exit_code_zero_iff_all_passed (settle : String → Except JsError ProbeResult) :
    ((main settle).code = 0 ↔ ∀ r ∈ (main settle).results, r.passed = true) ∧
    ((main settle).code = 0 ∨ (main settle).code = 1) ∧
    (main settle).code = exitCode (main settle).results ∧
    (∀ results : List CheckOutcome,
      (exitCode results = 0 ↔ ∀ r ∈ results, r.passed = true) ∧
      (exitCode results = 0 ∨ exitCode results = 1)) := by
  obtain ⟨os, lines, _, _, hmain⟩ := main_completes settle
  rw [hmain]
  exact ⟨exitCode_zero_iff os, exitCode_zero_or_one os, rfl,
    fun results => ⟨exitCode_zero_iff results, exitCode_zero_or_one results⟩⟩

/-- C2: for every probe of the registry and every way its test settles,
    `checkService` resolves to an outcome whose `passed` is true if and only
    if the test returned a result with `ok` true: `passed` is the `ok` of the
    result when the test returned, and false when the test failed. -/
theorem checkService_passed_iff (s : Service) (hs : s ∈ services)
    (t : Except JsError ProbeResult) :
    ∃ o, checkService s.key t = .ok o ∧ o.name = s.name ∧
      (o.passed = true ↔ ∃ r, t = .ok r ∧ r.ok = true) ∧
      (∀ r, t = .ok r → o.passed = r.ok) ∧
      (∀ e, t = .error e → o.passed = false) := by
  rw [checkService_of_mem s hs t]
  cases t with
  | ok r => exact ⟨_, rfl, rfl, by simp, by simp, by simp⟩
  | error e => exact ⟨_, rfl, rfl, by simp, by simp, by simp⟩

/-- Witness of C2: the Redis probe whose test returns `ok: true`. -/
theorem checkService_passed_iff_witness :
    ∃ o, checkService "redis" (.ok { ok := true, version := some "7.2.4" }) = .ok o ∧
      o.name = "Redis" ∧
      (o.passed = true ↔
        ∃ r, (Except.ok { ok := true, version := some "7.2.4" } : Except JsError ProbeResult) =
          .ok r ∧ r.ok = true) ∧
      (∀ r, (Except.ok { ok := true, version := some "7.2.4" } : Except JsError ProbeResult) =
          .ok r → o.passed = r.ok) ∧
      (∀ e, (Except.ok { ok := true, version := some "7.2.4" } : Except JsError ProbeResult) =
          .error e → o.passed = false) :=
  checkService_passed_iff ⟨"redis", "Redis", "⏳"⟩ (by decide)
    (.ok { ok := true, version := some "7.2.4" })

/-- C3 as stated fails: when the test of the MinIO probe fails with an error
    whose message is the empty string, the outcome holds that empty string as
    its `error`, not a non-empty message. -/
theorem checkService_empty_message :
    checkService "minio" (.error ⟨""⟩) =
        .ok { name := "MinIO", passed := false, details := none, error := some "" } ∧
    ¬ ∃ o m, checkService "minio" (.error ⟨""⟩) = .ok o ∧ o.error = some m ∧ m ≠ "" := by
  refine ⟨rfl, ?_⟩
  rintro ⟨o, m, ho, hm, hne⟩
  have h : checkService "minio" (.error ⟨""⟩) =
      .ok { name := "MinIO", passed := false, details := none, error := some "" } := rfl
  rw [h] at ho
  simp only [Except.ok.injEq] at ho
  subst ho
  simp only [Option.some.injEq] at hm
  exact hne hm.symm

/-- C3, amended: for every probe of the registry and every way its test
    settles, `checkService` resolves (it is never rejected) to an outcome in
    which exactly one of `details` and `error` is set: `details`, holding the
    result, when the test returned; `error`, holding the message of the error
    as it is, when the test failed, so the message kept is non-empty exactly
    when the message of the error is. -/
theorem checkService_details_or_error (s : Service) (hs : s ∈ services)
    (t : Except JsError ProbeResult) :
    ∃ o, checkService s.key t = .ok o ∧
      ((o.details.isSome = true ∧ o.error = none) ∨
        (o.details = none ∧ o.error.isSome = true)) ∧
      (∀ r, t = .ok r → o.details = some r ∧ o.error = none) ∧
      (∀ e, t = .error e → o.details = none ∧ o.error = some e.message ∧
        (e.message ≠ "" → ∃ m, o.error = some m ∧ m ≠ "")) := by
  rw [checkService_of_mem s hs t]
  cases t with
  | ok r => exact ⟨_, rfl, Or.inl ⟨rfl, rfl⟩, by simp, by simp⟩
  | error e =>
    refine ⟨_, rfl, Or.inr ⟨rfl, rfl⟩, by simp, ?_⟩
    intro e' he
    simp only [Except.error.injEq] at he
    subst he
    exact ⟨rfl, rfl, fun hne => ⟨_, rfl, hne⟩⟩

/-- Witness of C3, amended: the MinIO probe whose test fails because the
    connection is refused. -/
theorem checkService_details_or_error_witness :
    ∃ o, checkService "minio" (.error ⟨"connect ECONNREFUSED 127.0.0.1:9000"⟩) = .ok o ∧
      ((o.details.isSome = true ∧ o.error = none) ∨
        (o.details = none ∧ o.error.isSome = true)) ∧
      (∀ r, (Except.error ⟨"connect ECONNREFUSED 127.0.0.1:9000"⟩ :
          Except JsError ProbeResult) = .ok r → o.details = some r ∧ o.error = none) ∧
      (∀ e, (Except.error ⟨"connect ECONNREFUSED 127.0.0.1:9000"⟩ :
          Except JsError ProbeResult) = .error e →
        o.details = none ∧ o.error = some e.message ∧
        (e.message ≠ "" → ∃ m, o.error = some m ∧ m ≠ "")) :=
  checkService_details_or_error ⟨"minio", "MinIO", "⏳"⟩ (by decide)
    (.error ⟨"connect ECONNREFUSED 127.0.0.1:9000"⟩)

/-! ## The loop and the registry (C4, C10) -/

/-- C4: for every way the six probes settle, the loop of `main` runs to its
    end: nothing reaches the `unhandledRejection` handler, the `results`
    array holds one outcome per registry entry, six in all, named PostgreSQL,
    Redis, RabbitMQ, MinIO, Keycloak, pgAdmin in that order, each the outcome
    of `checkService` for its entry, and the console holds one report line
    per outcome, in the same order, between the header and the summary. -/
theorem main_runs_every_probe (settle : String → Except JsError ProbeResult) :
    (main settle).stderr = [] ∧
    (main settle).results.length = 6 ∧
    (main settle).results.map (fun o => o.name) =
      [ "PostgreSQL", "Redis", "RabbitMQ", "MinIO", "Keycloak", "pgAdmin" ] ∧
    List.Forall₂ (fun s o => checkService s.key (settle s.key) = .ok o)
      services (main settle).results ∧
    ∃ lines : List String,
      lines.length = 6 ∧
      List.Forall₂
        (fun o line => resultLine o.name (formatStatus o.passed) o.details = .ok line)
        (main settle).results lines ∧
      (main settle).stdout =
        printSummary (main settle).results
          (printHeader [] ++ [ "Testing services...\n" ] ++ lines) := by
  obtain ⟨os, lines, hos, hlines, hmain⟩ := main_completes settle
  rw [hmain]
  have hlen : os.length = 6 := by
    have := hos.length_eq
    rw [← this]; rfl
  have hnames : os.map (fun o => o.name) =
      [ "PostgreSQL", "Redis", "RabbitMQ", "MinIO", "Keycloak", "pgAdmin" ] := by
    have h1 := outcome_names settle serviceKeys os hos
    have h2 : serviceKeys.map (fun k => (lookupService k).map (fun s => s.name)) =
        [ "PostgreSQL", "Redis", "RabbitMQ", "MinIO", "Keycloak", "pgAdmin" ].map some := by
      decide
    rw [h2] at h1
    have h3 : (os.map (fun o => o.name)).map some =
        [ "PostgreSQL", "Redis", "RabbitMQ", "MinIO", "Keycloak", "pgAdmin" ].map some := by
      rw [h1, List.map_map]; rfl
    exact (List.map_injective_iff.mpr (Option.some_injective _)) h3
  refine ⟨rfl, hlen, hnames, ?_, lines, ?_, hlines, rfl⟩
  · have : List.Forall₂ (fun k o => checkService k (settle k) = .ok o)
        (services.map (fun s => s.key)) os := hos
    exact List.forall₂_map_left_iff.mp this
  · rw [← hlines.length_eq]; exact hlen

/-- C10: every probe of the registry has a name of at most 12 UTF-16 code
    units, so for every registry entry `repeat` gets a count that is not
    negative and `printResult` logs a line, whose part before the auxiliary
    fields (glyph, space, padded name) is 14 code units wide whatever the
    entry; for a name longer than 12 code units `printResult` fails with the
    `RangeError` of `repeat` and logs nothing. -/
theorem registry_names_fit_padding :
    (∀ s ∈ services, utf16Len s.name ≤ 12 ∧ (0 : Int) ≤ 12 - (utf16Len s.name : Int)) ∧
    (∀ s ∈ services, ∀ (passed : Bool) (details : Option ProbeResult) (c : Console),
      ∃ padding rest,
        jsRepeat " " (12 - (utf16Len s.name : Int)) = .ok padding ∧
        printResult s.name (formatStatus passed) details c =
          .ok (c ++ [ formatStatus passed ++ " " ++ s.name ++ padding ++ rest ]) ∧
        utf16Len (formatStatus passed ++ " " ++ s.name ++ padding) = 14) ∧
    (∀ (name status : String) (details : Option ProbeResult) (c : Console),
      12 < utf16Len name →
        printResult name status details c =
          .error ⟨"Invalid count value: " ++ toString (12 - (utf16Len name : Int))⟩) := by
  refine ⟨?_, ?_, ?_⟩
  · intro s hs
    have := name_length_of_mem s hs
    exact ⟨this, by omega⟩
  · intro s hs passed details c
    have hlen := name_length_of_mem s hs
    obtain ⟨rest, hrest⟩ := resultLine_ok s.name (formatStatus passed) details hlen
    refine ⟨_, rest, padding_ok s.name hlen, ?_, ?_⟩
    · simp only [printResult, hrest]
    · rw [utf16Len_append, utf16Len_append, utf16Len_append, utf16Len_spaces]
      have h1 : utf16Len (formatStatus passed) = 1 := by cases passed <;> decide
      have h2 : utf16Len " " = 1 := by decide
      omega
  · intro name status details c h
    simp only [printResult, resultLine_error name status details h]

/-- Witness of C10: the Keycloak entry, passing and failing, and a name of 13
    characters. -/
theorem registry_names_fit_padding_witness :
    printResult "Keycloak" (formatStatus true) (some { ok := true, status := some "UP" }) [] =
      .ok [ "✅ Keycloak     │ UP" ] ∧
    printResult "Keycloak" (formatStatus false) none [] = .ok [ "❌ Keycloak    " ] ∧
    utf16Len "✅ Keycloak    " = 14 ∧ utf16Len "❌ Keycloak    " = 14 ∧
    printResult "Elasticsearch" (formatStatus true) none [] =
      .error ⟨"Invalid count value: -1"⟩ :=
  ⟨rfl, rfl, by decide, by decide,
    registry_names_fit_padding.2.2 "Elasticsearch" (formatStatus true) none [] (by decide)⟩

/-! ## The report line (C5) -/

theorem appendVersion_eq (line : String) (d : ProbeResult) :
    appendVersion line d = line ++
      (match (withoutEmpty d).version with
        | some v => " │ v" ++ v
        | none => "") := by
  unfold appendVersion withoutEmpty
  cases hv : d.version with
  | none => simp [truthy]
  | some v =>
    by_cases he : v = ""
    · subst he; simp [truthy]
    · simp [truthy, he, String.append_assoc]

theorem appendStatus_eq (line : String) (d : ProbeResult) :
    appendStatus line d = line ++
      (match (withoutEmpty d).status with
        | some s => " │ " ++ s
        | none => "") := by
  unfold appendStatus withoutEmpty
  cases hv : d.status with
  | none => simp [truthy]
  | some v =>
    by_cases he : v = ""
    · subst he; simp [truthy]
    · simp [truthy, he, String.append_assoc]

theorem appendBuckets_eq (line : String) (d : ProbeResult) :
    appendBuckets line d = line ++
      (match (withoutEmpty d).buckets with
        | some n => " │ " ++ toString n ++ " buckets"
        | none => "") := by
  unfold appendBuckets withoutEmpty
  cases hv : d.buckets with
  | none => simp
  | some n => simp [String.append_assoc]

theorem resultLine_eq_specLine (name status : String) (d : ProbeResult)
    (h : utf16Len name ≤ 12) :
    resultLine name status (some d) = .ok (specLine status name (withoutEmpty d)) := by
  unfold resultLine
  rw [padding_ok name h]
  simp only [appendStatus_eq, appendBuckets_eq, appendVersion_eq, specLine, specSegments,
    String.append_assoc]

/-- C5 as stated fails: a record whose `version` is present and is the empty
    string gets no version segment, where the claim puts the segment `│ v`. -/
theorem resultLine_empty_version :
    resultLine "PostgreSQL" "✅" (some { ok := true, version := some "" }) =
      .ok "✅ PostgreSQL  " ∧
    specLine "✅" "PostgreSQL" { ok := true, version := some "" } = "✅ PostgreSQL   │ v" ∧
    resultLine "PostgreSQL" "✅" (some { ok := true, version := some "" }) ≠
      .ok (specLine "✅" "PostgreSQL" { ok := true, version := some "" }) := by
  refine ⟨rfl, rfl, ?_⟩
  intro h
  have h1 : resultLine "PostgreSQL" "✅" (some { ok := true, version := some "" }) =
      .ok "✅ PostgreSQL  " := rfl
  have h2 : specLine "✅" "PostgreSQL" { ok := true, version := some "" } =
      "✅ PostgreSQL   │ v" := rfl
  rw [h1, h2] at h
  simp only [Except.ok.injEq] at h
  revert h
  decide

/-- C5, amended: for every status glyph, every name of at most 12 UTF-16 code
    units and every details record, the line built by `printResult` is the
    glyph, a space and the name padded with spaces to 12 code units, followed,
    in the order version, buckets, status, by one segment for each auxiliary
    field that is present and, for version and status, is not the empty
    string, and by nothing for each other field.  A record carrying only
    `version: "16.1"` gets the suffix ` │ v16.1`, and a record carrying no
    auxiliary field is rendered as the glyph and the padded name alone. -/
theorem resultLine_renders_present_fields (status name : String) (d : ProbeResult)
    (h : utf16Len name ≤ 12) :
    resultLine name status (some d) = .ok (specLine status name (withoutEmpty d)) ∧
    (d.version ≠ some "" → d.status ≠ some "" →
      resultLine name status (some d) = .ok (specLine status name d)) ∧
    utf16Len (name ++ String.join (List.replicate (12 - utf16Len name) " ")) = 12 ∧
    (∀ ok : Bool, resultLine name status (some { ok := ok, version := some "16.1" }) =
      .ok (status ++ " " ++ name ++ String.join (List.replicate (12 - utf16Len name) " ") ++
        " │ v16.1")) ∧
    (∀ ok : Bool, resultLine name status (some { ok := ok }) =
      .ok (status ++ " " ++ name ++ String.join (List.replicate (12 - utf16Len name) " "))) := by
  refine ⟨resultLine_eq_specLine name status d h, ?_, ?_, ?_, ?_⟩
  · intro hv hs
    rw [resultLine_eq_specLine name status d h]
    have : withoutEmpty d = d := by
      cases d with
      | mk ok version buckets status =>
        simp only [withoutEmpty] at *
        simp [hv, hs]
    rw [this]
  · rw [utf16Len_append, utf16Len_spaces]; omega
  · intro ok
    rw [resultLine_eq_specLine name status _ h]
    simp [specLine, specSegments, withoutEmpty]
  · intro ok
    rw [resultLine_eq_specLine name status _ h]
    simp [specLine, specSegments, withoutEmpty]

/-- Witness of C5, amended: the PostgreSQL line with glyph and version. -/
theorem resultLine_renders_present_fields_witness :
    resultLine "PostgreSQL" "✅" (some { ok := true, version := some "16.1" }) =
      .ok "✅ PostgreSQL   │ v16.1" :=
  (resultLine_renders_present_fields "✅" "PostgreSQL"
    { ok := true, version := some "16.1" } (by decide)).2.2.2.1 true

/-! ## The line of a failed probe (C6) -/

theorem forall₂_getElem? {α β : Type} {R : α → β → Prop} {l₁ : List α} {l₂ : List β}
    (h : List.Forall₂ R l₁ l₂) :
    ∀ (i : Nat) (a : α), l₁[i]? = some a → ∃ b, l₂[i]? = some b ∧ R a b := by
  induction h with
  | nil => intro i a ha; simp at ha
  | cons hab _ ih =>
    intro i a ha
    cases i with
    | zero =>
      simp only [List.getElem?_cons_zero, Option.some.injEq] at ha
      subst ha
      exact ⟨_, by simp, hab⟩
    | succ j =>
      simp only [List.getElem?_cons_succ] at ha
      obtain ⟨b, hb, hr⟩ := ih j a ha
      exact ⟨b, by simpa using hb, hr⟩

theorem printSummary_append (results : List CheckOutcome) (c : Console) :
    printSummary results c = c ++ printSummary results [] := by
  unfold printSummary
  by_cases h : (passedCount results == results.length) = true
  · simp [h]
  · simp [h]

theorem failLine_of_name (name : String) (h : utf16Len name ≤ 12) :
    resultLine name (formatStatus false) none =
      .ok ("❌ " ++ name ++ String.join (List.replicate (12 - utf16Len name) " ")) := by
  unfold resultLine
  rw [padding_ok name h]
  have : formatStatus false ++ " " = "❌ " := by decide
  simp only [this]

/-- C6 as stated fails: when the test of the MinIO probe fails because the
    connection is refused, the line `main` logs for it is the glyph and the
    padded name alone; the text of the error is not in it, nor in any other
    entry of the console. -/
theorem failed_line_lacks_error_text :
    (main (fun key =>
        if key = "minio" then .error ⟨"connect ECONNREFUSED 127.0.0.1:9000"⟩
        else .ok { ok := true })).results[3]? =
      some { name := "MinIO", passed := false,
             error := some "connect ECONNREFUSED 127.0.0.1:9000" } ∧
    (main (fun key =>
        if key = "minio" then .error ⟨"connect ECONNREFUSED 127.0.0.1:9000"⟩
        else .ok { ok := true })).stdout[7]? = some "❌ MinIO       " ∧
    ¬ ("connect ECONNREFUSED 127.0.0.1:9000".data <:+: "❌ MinIO       ".data) ∧
    ∀ entry ∈ (main (fun key =>
        if key = "minio" then .error ⟨"connect ECONNREFUSED 127.0.0.1:9000"⟩
        else .ok { ok := true })).stdout,
      ¬ ("connect ECONNREFUSED 127.0.0.1:9000".data <:+: entry.data) := by
  refine ⟨by decide, by decide, by decide, by decide⟩

/-- C6, amended: for every probe whose test fails with an error carrying
    message m, the outcome `main` records for it keeps m in its `error`
    property, and the report line `main` logs for it is a fail line made of
    the glyph ❌, a space and the name padded to 12 code units, and of nothing
    else: whatever m is, the line is the same. -/
theorem failed_probe_line (settle : String → Except JsError ProbeResult)
    (i : Nat) (s : Service) (e : JsError)
    (hs : services[i]? = some s) (he : settle s.key = .error e) :
    (main settle).results[i]? =
      some { name := s.name, passed := false, error := some e.message } ∧
    (main settle).stdout[4 + i]? =
      some ("❌ " ++ s.name ++ String.join (List.replicate (12 - utf16Len s.name) " ")) := by
  obtain ⟨os, lines, hos, hlines, hmain⟩ := main_completes settle
  have hmem : s ∈ services := List.getElem?_mem hs
  have hkey : serviceKeys[i]? = some s.key := by
    simp [serviceKeys, List.getElem?_map, hs]
  obtain ⟨o, hoi, hcs⟩ := forall₂_getElem? hos i s.key hkey
  rw [checkService_of_mem s hmem, he] at hcs
  simp only [Except.ok.injEq] at hcs
  subst hcs
  obtain ⟨line, hli, hline⟩ := forall₂_getElem? hlines i _ hoi
  rw [failLine_of_name s.name (name_length_of_mem s hmem)] at hline
  simp only [Except.ok.injEq] at hline
  subst hline
  rw [hmain]
  refine ⟨hoi, ?_⟩
  show (printSummary os (printHeader [] ++ [ "Testing services...\n" ] ++ lines))[4 + i]? = _
  rw [printSummary_append]
  have hlt : i < lines.length := by
    by_contra hge
    rw [List.getElem?_eq_none (by omega)] at hli
    exact absurd hli (by simp)
  have h4 : (printHeader [] ++ [ "Testing services...\n" ]).length = 4 := by decide
  rw [List.getElem?_append_left (by simp only [List.length_append, h4]; omega),
    List.getElem?_append_right (by omega), h4]
  simpa using hli

/-- Witness of C6, amended: a run in which the MinIO probe is refused the
    connection and the other five pass. -/
theorem failed_probe_line_witness :
    (main (fun key =>
        if key = "minio" then .error ⟨"connect ECONNREFUSED 127.0.0.1:9000"⟩
        else .ok { ok := true })).results[3]? =
      some { name := "MinIO", passed := false,
             error := some "connect ECONNREFUSED 127.0.0.1:9000" } ∧
    (main (fun key =>
        if key = "minio" then .error ⟨"connect ECONNREFUSED 127.0.0.1:9000"⟩
        else .ok { ok := true })).stdout[4 + 3]? =
      some ("❌ " ++ "MinIO" ++ String.join (List.replicate (12 - utf16Len "MinIO") " ")) :=
  failed_probe_line
    (fun key =>
      if key = "minio" then .error ⟨"connect ECONNREFUSED 127.0.0.1:9000"⟩
      else .ok { ok := true })
    3 ⟨"minio", "MinIO", "⏳"⟩ ⟨"connect ECONNREFUSED 127.0.0.1:9000"⟩ (by decide) rfl

/-! ## The summary and the exit code (C7, C9) -/

theorem head_of_append (c : Char) (cs : List Char) (x : String) :
    (String.mk (c :: cs) ++ x).data.head? = some c := by
  simp [String.data_append]

theorem result_entry_ne_of_head (x y : String) (c : Char) (hc : c ≠ 'R')
    (hy : y.data.head? = some c) : "Result: " ++ x ≠ y := by
  intro h
  have h1 : ("Result: " ++ x).data.head? = some 'R' := head_of_append 'R' "esult: ".data x
  rw [h, hy] at h1
  simp only [Option.some.injEq] at h1
  exact hc h1

theorem printSummary_nil_eq (results : List CheckOutcome) :
    printSummary results [] =
      [ "\n────────────────────────────────────────────────",
        "\nStatus: " ++
          (if passedCount results = results.length then "✅ ALL SERVICES HEALTHY"
           else "⚠️  SOME SERVICES UNAVAILABLE"),
        "Result: " ++ toString (passedCount results) ++ "/" ++ toString results.length ++
          " services passed\n" ] ++
      (if passedCount results = results.length then []
       else [ "💡 Tip: Run \"docker-compose logs -f\" to view service logs\n" ]) := by
  have hbar : "\n" ++ String.join (List.replicate 48 "─") =
      "\n────────────────────────────────────────────────" := by decide
  unfold printSummary
  rw [hbar]
  by_cases h : passedCount results = results.length
  · simp [h]
  · simp [h]

theorem healthy_banner_mem_iff (results : List CheckOutcome) :
    "\nStatus: ✅ ALL SERVICES HEALTHY" ∈ printSummary results [] ↔
      passedCount results = results.length := by
  rw [printSummary_nil_eq]
  by_cases h : passedCount results = results.length
  · simp only [h, if_true, iff_true]
    have : "\nStatus: " ++ "✅ ALL SERVICES HEALTHY" = "\nStatus: ✅ ALL SERVICES HEALTHY" := by
      decide
    simp [this]
  · simp only [h, if_false, iff_false]
    intro hmem
    simp only [List.cons_append, List.nil_append, List.mem_cons, List.mem_singleton,
      List.not_mem_nil, or_false] at hmem
    rcases hmem with h1 | h1 | h1 | h1
    · revert h1; decide
    · revert h1; decide
    · exact result_entry_ne_of_head
        (toString (passedCount results) ++ "/" ++ toString results.length ++
          " services passed\n")
        "\nStatus: ✅ ALL SERVICES HEALTHY" '\n' (by decide) (by decide)
        (by rw [h1]; simp [String.append_assoc])
    · revert h1; decide

theorem tip_mem_iff (results : List CheckOutcome) :
    "💡 Tip: Run \"docker-compose logs -f\" to view service logs\n" ∈ printSummary results [] ↔
      passedCount results ≠ results.length := by
  rw [printSummary_nil_eq]
  by_cases h : passedCount results = results.length
  · simp only [h, if_true, ne_eq, not_true_eq_false, iff_false]
    intro hmem
    simp only [List.append_nil, List.mem_cons, List.mem_singleton,
      List.not_mem_nil, or_false] at hmem
    rcases hmem with h1 | h1 | h1
    · revert h1; decide
    · revert h1; decide
    · exact result_entry_ne_of_head
        (toString results.length ++ "/" ++ toString results.length ++ " services passed\n")
        "💡 Tip: Run \"docker-compose logs -f\" to view service logs\n" '💡'
        (by decide) (by decide) (by rw [h1]; simp [String.append_assoc])
  · simp [h]

/-- C7: for every result list, with p the number of outcomes whose `passed`
    is true and t the length of the list, `printSummary` logs the separator,
    the status line and the line `Result: p/t services passed` (followed by a
    line break), then the tip when p differs from t; the banner
    `✅ ALL SERVICES HEALTHY` is logged exactly when p = t.  Six outcomes that
    all pass give `6/6 services passed`, and six outcomes of which five pass
    give `5/6`. -/
theorem printSummary_counts (results : List CheckOutcome) (c : Console) :
    printSummary results c = c ++
      ([ "\n────────────────────────────────────────────────",
         "\nStatus: " ++
          (if (results.filter (fun r => r.passed)).length = results.length
           then "✅ ALL SERVICES HEALTHY" else "⚠️  SOME SERVICES UNAVAILABLE"),
         "Result: " ++ toString (results.filter (fun r => r.passed)).length ++ "/" ++
          toString results.length ++ " services passed\n" ] ++
       (if (results.filter (fun r => r.passed)).length = results.length then []
        else [ "💡 Tip: Run \"docker-compose logs -f\" to view service logs\n" ])) ∧
    ("\nStatus: ✅ ALL SERVICES HEALTHY" ∈ printSummary results [] ↔
      (results.filter (fun r => r.passed)).length = results.length) ∧
    (results.length = 6 → (results.filter (fun r => r.passed)).length = 6 →
      "Result: 6/6 services passed\n" ∈ printSummary results c) ∧
    (results.length = 6 → (results.filter (fun r => r.passed)).length = 5 →
      "Result: 5/6 services passed\n" ∈ printSummary results c) := by
  have hp : (results.filter (fun r => r.passed)).length = passedCount results := rfl
  refine ⟨?_, ?_, ?_, ?_⟩
  · rw [printSummary_append, printSummary_nil_eq, hp]
  · rw [hp]; exact healthy_banner_mem_iff results
  · intro ht hcount
    rw [hp] at hcount
    rw [printSummary_append, printSummary_nil_eq, ht, hcount]
    have : "Result: " ++ toString 6 ++ "/" ++ toString 6 ++ " services passed\n" =
        "Result: 6/6 services passed\n" := by decide
    simp [this]
  · intro ht hcount
    rw [hp] at hcount
    rw [printSummary_append, printSummary_nil_eq, ht, hcount]
    have : "Result: " ++ toString 5 ++ "/" ++ toString 6 ++ " services passed\n" =
        "Result: 5/6 services passed\n" := by decide
    simp [this]

/-- Witness of C7: five passing outcomes and one failing. -/
theorem printSummary_counts_witness :
    "Result: 5/6 services passed\n" ∈
      printSummary
        [ ⟨"PostgreSQL", true, some { ok := true, version := some "16.1" }, none⟩,
          ⟨"Redis", true, some { ok := true, version := some "7.2.4" }, none⟩,
          ⟨"RabbitMQ", true, some { ok := true, version := some "3.12.0" }, none⟩,
          ⟨"MinIO", false, none, some "connect ECONNREFUSED 127.0.0.1:9000"⟩,
          ⟨"Keycloak", true, some { ok := true, status := some "UP" }, none⟩,
          ⟨"pgAdmin", true, some { ok := true }, none⟩ ] [] :=
  (printSummary_counts
    [ ⟨"PostgreSQL", true, some { ok := true, version := some "16.1" }, none⟩,
      ⟨"Redis", true, some { ok := true, version := some "7.2.4" }, none⟩,
      ⟨"RabbitMQ", true, some { ok := true, version := some "3.12.0" }, none⟩,
      ⟨"MinIO", false, none, some "connect ECONNREFUSED 127.0.0.1:9000"⟩,
      ⟨"Keycloak", true, some { ok := true, status := some "UP" }, none⟩,
      ⟨"pgAdmin", true, some { ok := true }, none⟩ ] []).2.2.2 (by decide) (by decide)

theorem resultLine_starts_with_status (name status line : String)
    (details : Option ProbeResult) (h : resultLine name status details = .ok line) :
    ∃ rest, line = status ++ rest := by
  unfold resultLine at h
  cases hp : jsRepeat " " (12 - (utf16Len name : Int)) with
  | error e => simp [hp] at h
  | ok padding =>
    simp only [hp] at h
    cases details with
    | none =>
      simp only [Except.ok.injEq] at h
      exact ⟨" " ++ name ++ padding, by rw [← h]; simp [String.append_assoc]⟩
    | some d =>
      simp only [Except.ok.injEq] at h
      obtain ⟨rest, hrest⟩ := appended_segments (status ++ " " ++ name ++ padding) d
      exact ⟨" " ++ name ++ padding ++ rest, by rw [← h, hrest]; simp [String.append_assoc]⟩

theorem forall₂_of_mem_right {α β : Type} {R : α → β → Prop} {l₁ : List α} {l₂ : List β}
    (h : List.Forall₂ R l₁ l₂) : ∀ b ∈ l₂, ∃ a, a ∈ l₁ ∧ R a b := by
  induction h with
  | nil => intro b hb; simp at hb
  | cons hab _ ih =>
    intro b hb
    rcases List.mem_cons.mp hb with hb | hb
    · subst hb; exact ⟨_, List.mem_cons_self _ _, hab⟩
    · obtain ⟨a, ha, hr⟩ := ih b hb
      exact ⟨a, List.mem_cons_of_mem _ ha, hr⟩

theorem report_line_ne_tip (passed : Bool) (rest : String) :
    formatStatus passed ++ rest ≠
      "💡 Tip: Run \"docker-compose logs -f\" to view service logs\n" := by
  intro h
  have h1 := congrArg (fun s => s.data.head?) h
  cases passed with
  | true =>
    have h2 : (formatStatus true ++ rest).data.head? = some '✅' := head_of_append '✅' [] rest
    simp only [h2] at h1
    revert h1; decide
  | false =>
    have h2 : (formatStatus false ++ rest).data.head? = some '❌' := head_of_append '❌' [] rest
    simp only [h2] at h1
    revert h1; decide

/-- C9: for every result list, `printSummary` logs the tip if and only if the
    exit code that `main` takes from the list is 1: the test of the summary
    (the number of passing outcomes equals the length) and the test of the
    exit decision (every outcome passes) agree, on the empty list too, where
    no tip is logged and the exit code is 0.  So in every run of `main` the
    tip is on the console if and only if the process exits with code 1. -/
theorem tip_iff_exit_code_one (results : List CheckOutcome) :
    ("💡 Tip: Run \"docker-compose logs -f\" to view service logs\n" ∈
        printSummary results [] ↔ exitCode results = 1) ∧
    ((results.filter (fun r => r.passed)).length = results.length ↔
      results.all (fun r => r.passed) = true) ∧
    "💡 Tip: Run \"docker-compose logs -f\" to view service logs\n" ∉ printSummary [] [] ∧
    exitCode [] = 0 ∧
    (∀ settle : String → Except JsError ProbeResult,
      "💡 Tip: Run \"docker-compose logs -f\" to view service logs\n" ∈ (main settle).stdout ↔
        (main settle).code = 1) := by
  have hall : ∀ rs : List CheckOutcome,
      (rs.filter (fun r => r.passed)).length = rs.length ↔
        rs.all (fun r => r.passed) = true := by
    intro rs
    rw [List.filter_length_eq_length, List.all_eq_true]
  have hlist : ∀ rs : List CheckOutcome,
      "💡 Tip: Run \"docker-compose logs -f\" to view service logs\n" ∈ printSummary rs [] ↔
        exitCode rs = 1 := by
    intro rs
    rw [tip_mem_iff]
    have hp : passedCount rs = (rs.filter (fun r => r.passed)).length := rfl
    rw [hp, ne_eq, hall rs]
    unfold exitCode
    by_cases h : rs.all (fun r => r.passed) = true
    · simp [h]
    · simp [h]
  refine ⟨hlist results, hall results, by decide, rfl, ?_⟩
  intro settle
  obtain ⟨os, lines, _, hlines, hmain⟩ := main_completes settle
  rw [hmain]
  show _ ∈ printSummary os (printHeader [] ++ [ "Testing services...\n" ] ++ lines) ↔
    exitCode os = 1
  rw [printSummary_append, ← hlist os]
  constructor
  · intro hmem
    rcases List.mem_append.mp hmem with hmem | hmem
    · rcases List.mem_append.mp hmem with hmem | hmem
      · have hnot : "💡 Tip: Run \"docker-compose logs -f\" to view service logs\n" ∉
            printHeader [] ++ [ "Testing services...\n" ] := by decide
        exact absurd hmem hnot
      · obtain ⟨o, _, hline⟩ := forall₂_of_mem_right hlines _ hmem
        obtain ⟨rest, hrest⟩ := resultLine_starts_with_status _ _ _ _ hline
        exact absurd hrest.symm (report_line_ne_tip o.passed rest)
    · exact hmem
  · intro hmem
    exact List.mem_append_right _ hmem

/-! ## Missing fields (C8) -/

theorem dropLeading_eq_some (pre : List Char) :
    ∀ (l rest : List Char), dropLeading pre l = some rest → l = pre ++ rest := by
  induction pre with
  | nil => intro l rest h; simpa [dropLeading] using h
  | cons p ps ih =>
    intro l rest h
    cases l with
    | nil => simp [dropLeading] at h
    | cons c cs =>
      by_cases hpc : p = c
      · subst hpc
        simp only [dropLeading, if_true] at h
        rw [ih cs rest h]; rfl
      · simp [dropLeading, hpc] at h

theorem matchRedisVersion_some (l : List Char) :
    ∀ cap, matchRedisVersion l = some cap → "redis_version:".data <:+: l := by
  induction l with
  | nil => intro cap h; simp [matchRedisVersion] at h
  | cons c cs ih =>
    intro cap h
    unfold matchRedisVersion at h
    cases hd : dropLeading "redis_version:".data (c :: cs) with
    | none =>
      simp only [hd] at h
      exact (ih cap h).trans (List.suffix_cons c cs).isInfix
    | some rest =>
      have hl := dropLeading_eq_some _ _ _ hd
      rw [hl]
      exact (List.prefix_append _ _).isInfix

theorem matchRedisVersion_none (l : List Char) (h : ¬ ("redis_version:".data <:+: l)) :
    matchRedisVersion l = none := by
  cases hm : matchRedisVersion l with
  | none => rfl
  | some cap => exact absurd (matchRedisVersion_some l cap hm) h

/-- C8 as stated fails: when the overview of the broker is a JSON object
    without `rabbitmq_version`, or the readiness answer of the identity
    provider is a JSON object without `status`, the test returns a result
    without that field and `checkService` gives an outcome that passed and
    has no error. -/
theorem missing_json_field_passes :
    rabbitmqTest (.ok ()) (.ok ()) (.ok ()) (.ok ())
        (.ok ⟨200, .object [("management_version", "3.12.0")]⟩) =
      .ok { ok := true, version := none } ∧
    checkService "rabbitmq"
        (rabbitmqTest (.ok ()) (.ok ()) (.ok ()) (.ok ())
          (.ok ⟨200, .object [("management_version", "3.12.0")]⟩)) =
      .ok { name := "RabbitMQ", passed := true, details := some { ok := true }, error := none } ∧
    keycloakTest (.ok ⟨200, .object []⟩) = .ok { ok := true, status := none } ∧
    checkService "keycloak" (keycloakTest (.ok ⟨200, .object []⟩)) =
      .ok { name := "Keycloak", passed := true, details := some { ok := true }, error := none } :=
  ⟨rfl, rfl, rfl, rfl⟩

/-- C8, amended: for the database probe, a query result with no row or whose
    first row has no `version`, and for the cache probe, a server-info text
    in which `redis_version:` does not occur, make the test fail with a
    `TypeError` at the extraction of the field, so that `checkService` gives
    an outcome with `passed` false and a non-empty error message.  For the
    broker probe and the identity-provider probe, a JSON object without the
    field (`rabbitmq_version`, `status`) does not make the test fail: it
    returns a result in which the field is absent, and `passed` is its `ok`
    (true for the broker, whether the HTTP status is 200 for the identity
    provider). -/
theorem missing_field_outcomes :
    (∀ result : PgQueryResult,
      (result.rows.head? = none ∨ ∃ row, result.rows.head? = some row ∧ row.version = none) →
      ∃ m, m ≠ "" ∧
        postgresTest (.ok ()) (.ok result) (.ok ()) = .error ⟨m⟩ ∧
        checkService "postgres" (postgresTest (.ok ()) (.ok result) (.ok ())) =
          .ok { name := "PostgreSQL", passed := false, details := none, error := some m }) ∧
    (∀ pong text : String, ¬ ("redis_version:".data <:+: text.data) →
      ∃ m, m ≠ "" ∧
        redisTest (.ok ()) (.ok pong) (.ok text) = .error ⟨m⟩ ∧
        checkService "redis" (redisTest (.ok ()) (.ok pong) (.ok text)) =
          .ok { name := "Redis", passed := false, details := none, error := some m }) ∧
    (∀ (status : Nat) (fields : List (String × String)),
      fields.lookup "rabbitmq_version" = none →
      rabbitmqTest (.ok ()) (.ok ()) (.ok ()) (.ok ()) (.ok ⟨status, .object fields⟩) =
        .ok { ok := true, version := none } ∧
      checkService "rabbitmq"
          (rabbitmqTest (.ok ()) (.ok ()) (.ok ()) (.ok ()) (.ok ⟨status, .object fields⟩)) =
        .ok { name := "RabbitMQ", passed := true,
              details := some { ok := true, version := none }, error := none }) ∧
    (∀ (status : Nat) (fields : List (String × String)),
      fields.lookup "status" = none →
      keycloakTest (.ok ⟨status, .object fields⟩) =
        .ok { ok := status == 200, status := none } ∧
      checkService "keycloak" (keycloakTest (.ok ⟨status, .object fields⟩)) =
        .ok { name := "Keycloak", passed := status == 200,
              details := some { ok := status == 200, status := none }, error := none }) := by
  refine ⟨?_, ?_, ?_, ?_⟩
  · intro result h
    rcases h with h | ⟨row, h, hv⟩
    · refine ⟨"Cannot read properties of undefined (reading \x27version\x27)", by decide, ?_⟩
      have ht : postgresTest (.ok ()) (.ok result) (.ok ()) =
          .error ⟨"Cannot read properties of undefined (reading \x27version\x27)"⟩ := by
        simp only [postgresTest, h]
      rw [ht]
      exact ⟨rfl, rfl⟩
    · refine ⟨"Cannot read properties of undefined (reading \x27split\x27)", by decide, ?_⟩
      have ht : postgresTest (.ok ()) (.ok result) (.ok ()) =
          .error ⟨"Cannot read properties of undefined (reading \x27split\x27)"⟩ := by
        simp only [postgresTest, h, hv]
      rw [ht]
      exact ⟨rfl, rfl⟩
  · intro pong text h
    refine ⟨"Cannot read properties of null (reading \x271\x27)", by decide, ?_⟩
    have ht : redisTest (.ok ()) (.ok pong) (.ok text) =
        .error ⟨"Cannot read properties of null (reading \x271\x27)"⟩ := by
      simp only [redisTest, matchRedisVersion_none text.data h]
    rw [ht]
    exact ⟨rfl, rfl⟩
  · intro status fields h
    have ht : rabbitmqTest (.ok ()) (.ok ()) (.ok ()) (.ok ()) (.ok ⟨status, .object fields⟩) =
        .ok { ok := true, version := none } := by
      simp only [rabbitmqTest, readProperty, h]
    rw [ht]
    exact ⟨rfl, rfl⟩
  · intro status fields h
    have ht : keycloakTest (.ok ⟨status, .object fields⟩) =
        .ok { ok := status == 200, status := none } := by
      simp only [keycloakTest, readProperty, h]
    rw [ht]
    exact ⟨rfl, rfl⟩

/-- Witness of C8, amended: a server-info text without the version entry
    makes the outcome of the cache probe fail with the message of the
    `TypeError`. -/
theorem missing_field_outcomes_witness :
    ∃ m, m ≠ "" ∧
      redisTest (.ok ()) (.ok "PONG") (.ok "# Server\r\nredis_mode:standalone\r\n") =
        .error ⟨m⟩ ∧
      checkService "redis"
          (redisTest (.ok ()) (.ok "PONG") (.ok "# Server\r\nredis_mode:standalone\r\n")) =
        .ok { name := "Redis", passed := false, details := none, error := some m } :=
  missing_field_outcomes.2.1 "PONG" "# Server\r\nredis_mode:standalone\r\n" (by decide)

end HealthCheck
